import Mathlib

/-!
# Verification of the Sage `/calendar` command (src/src/commands/general/reminder.ts)

Shallow embedding of the calendar retrieval / filtering / pagination engine.
JavaScript strings are modelled as `List Char`; JavaScript `undefined` as
`Option`; a thrown exception as `Except.error`.  The behaviour of the external
`Date` object (`toLocaleString`, `getDay`) is kept abstract in a `DateOracle`
parameter, since it belongs to the JS runtime and not to the repository.
-/

namespace Sage

/-- JavaScript strings, modelled as lists of characters. -/
abbrev Str := List Char

/-- `s.toLowerCase()` (per-character lowering, as used on ASCII data here). -/
def lowerL (s : Str) : Str := s.map Char.toLower

/-- `s.toUpperCase()`. -/
def upperL (s : Str) : Str := s.map Char.toUpper

/-- `hay.includes(nee)`: substring containment test. -/
def includesJS (hay nee : Str) : Bool := decide (nee <:+: hay)

/-- Whitespace as trimmed by `String.prototype.trim` (the forms relevant here). -/
def isWs (c : Char) : Bool := c == ' ' || c == '\t' || c == '\n' || c == '\r'

/-- `s.trim()`: drop leading and trailing whitespace. -/
def trimL (s : Str) : Str := ((s.dropWhile isWs).reverse.dropWhile isWs).reverse

/-- `s.split(sep)` for a one-character separator.  Like the JS method, the
result is never empty: `"".split('-') = [""]`. -/
def splitOnC (sep : Char) : Str → List Str
  | [] => [[]]
  | c :: t =>
    if c == sep then [] :: splitOnC sep t
    else
      match splitOnC sep t with
      | [] => [[c]]
      | h :: r => (c :: h) :: r

/-- JS `a || b` where `a` is possibly-`undefined` string-valued: `undefined`
and the empty string are falsy. -/
def jsOrUndef (a : Option Str) (b : Str) : Str :=
  match a with
  | none => b
  | some s => if s.isEmpty then b else s

/-- JS `a || b` where both operands are possibly-`undefined` strings. -/
def jsOrOpt (a b : Option Str) : Option Str :=
  match a with
  | none => b
  | some s => if s.isEmpty then b else some s

/-- Provider-native `start`/`end` record: either a date-time or a date-only
value may be present (duck-typed field access in the source). -/
structure StartEnd where
  dateTime : Option Str
  date : Option Str
deriving DecidableEq, Repr

/-- Raw Event as returned by the Google Calendar client (the fields the
command reads).  `summary` is a string; `start`/`end` records may be absent. -/
structure RawEvent where
  id : Str
  summary : Str
  start : Option StartEnd
  stop : Option StartEnd
  location : Option Str
deriving DecidableEq, Repr

/-- The normalized `Event` interface persisted to MongoDB. -/
structure Event where
  eventId : Str
  courseID : Str
  instructor : Str
  date : Str
  start : Str
  stop : Str
  location : Str
  locationType : Str
deriving DecidableEq, Repr

/-- Abstract semantics of the JS `Date` runtime: `fmt` models
`new Date(s).toLocaleString('en-US', …)` and `getDay` models
`new Date(s).getDay()` (`none` = invalid date / `NaN`). -/
structure DateOracle where
  fmt : Str → Str
  getDay : Str → Option Nat

/-- The placeholder the command prints for an absent date. -/
def noneStr : Str := "\x60NONE\x60".toList

/-- `formatDateTime` from the source: falsy input yields the placeholder,
otherwise the locale-formatted date. -/
def formatDateTime (o : DateOracle) (dateTime : Option Str) : Str :=
  match dateTime with
  | none => noneStr
  | some d => if d.isEmpty then noneStr else o.fmt d

/-- `'V'` / `'IP'` literals. -/
def vStr : Str := "V".toList

def ipStr : Str := "IP".toList

def virtualStr : Str := "virtual".toList

/-- The `eventData` construction (normalization of one raw event): split the
summary on `'-'`, take trimmed segments 0/1 for course and instructor, derive
the location type from segment 2, and prefer `dateTime` over `date`. -/
def normalize (o : DateOracle) (ev : RawEvent) : Event :=
  let eventParts := splitOnC '-' ev.summary
  { eventId := ev.id
    courseID := jsOrUndef ((eventParts.get? 0).map trimL) []
    instructor := jsOrUndef ((eventParts.get? 1).map trimL) []
    date := formatDateTime o (jsOrOpt (ev.start.bind StartEnd.dateTime) (ev.start.bind StartEnd.date))
    start := jsOrUndef (jsOrOpt (ev.start.bind StartEnd.dateTime) (ev.start.bind StartEnd.date)) []
    stop := jsOrUndef (jsOrOpt (ev.stop.bind StartEnd.dateTime) (ev.stop.bind StartEnd.date)) []
    location := jsOrUndef ev.location []
    locationType :=
      match eventParts.get? 2 with
      | none => ipStr
      | some s => if includesJS (lowerL (trimL s)) virtualStr then vStr else ipStr }

/-- The twelve lowercase month names of the `dateRegex` alternation. -/
def monthNames : List Str :=
  ["january", "february", "march", "april", "may", "june", "july",
   "august", "september", "october", "november", "december"].map String.toList

/-- `dateRegex = /^(?:january|…|december) (\d{1,2})$/` as a decision
procedure: a lowercase month name, a space, then one or two digits. -/
def dateRegexTest (s : Str) : Bool :=
  monthNames.any fun m =>
    m.isPrefixOf s &&
      (match s.drop m.length with
       | ' ' :: ds => (ds.length == 1 || ds.length == 2) && ds.all Char.isDigit
       | _ => false)

/-- `classNameRegex = /^cisc\d{3}$/i`: case-insensitively, the four letters
`cisc` followed by exactly three digits. -/
def classNameRegexTest (s : Str) : Bool :=
  match lowerL s with
  | 'c' :: 'i' :: 's' :: 'c' :: ds => ds.length == 3 && ds.all Char.isDigit
  | _ => false

/-- `daysOfWeekMap`: the Sunday=0 … Saturday=6 lookup table. -/
def daysOfWeekPairs : List (Str × Nat) :=
  [("sunday".toList, 0), ("monday".toList, 1), ("tuesday".toList, 2),
   ("wednesday".toList, 3), ("thursday".toList, 4), ("friday".toList, 5),
   ("saturday".toList, 6)]

/-- `daysOfWeekMap[k]`: `none` models an `undefined` lookup. -/
def daysOfWeekMap (k : Str) : Option Nat := daysOfWeekPairs.lookup k

/-- The raw command options as delivered by the chat client
(`none` = option not supplied). -/
structure Opts where
  classname : Option Str
  locationtype : Option Str
  eventholder : Option Str
  eventdate : Option Str
  dayofweek : Option Str
deriving DecidableEq, Repr

/-- The processed filter values, after the `getString(…) || ''` /
`?.toUpperCase()` / `?.toLowerCase()` normalization at the top of `run`. -/
structure Criteria where
  className : Str
  locationType : Str
  eventHolder : Str
  eventDate : Str
  dayOfWeek : Str
deriving DecidableEq, Repr

/-- Reading the five options exactly as `run` does. -/
def readOpts (o : Opts) : Criteria :=
  { className := jsOrUndef o.classname []
    locationType := jsOrUndef (o.locationtype.map upperL) []
    eventHolder := jsOrUndef o.eventholder []
    eventDate := jsOrUndef o.eventdate []
    dayOfWeek := jsOrUndef (o.dayofweek.map lowerL) [] }

/-- Class-name predicate: when the criterion is set, a case-insensitive
substring test of the whole summary. -/
def matchClassName (cn : Str) (e : RawEvent) : Bool :=
  if cn.isEmpty then true else includesJS (lowerL e.summary) (lowerL cn)

/-- Event-date predicate.  The source computes
`formatDateTime(event.start?.dateTime.toLowerCase())`: when `start` is
present but has no `dateTime` field, `.toLowerCase()` is applied to
`undefined` and a `TypeError` is thrown, modelled as `Except.error`. -/
def matchEventDate (o : DateOracle) (ed : Str) (e : RawEvent) : Except Unit Bool :=
  match e.start with
  | none => .ok (includesJS (lowerL (formatDateTime o none)) (lowerL ed))
  | some st =>
    match st.dateTime with
    | none => .error ()
    | some dt => .ok (includesJS (lowerL (formatDateTime o (some (lowerL dt)))) (lowerL ed))

/-- Day-of-week predicate: `new Date(start?.dateTime || start?.date).getDay()
=== daysOfWeekMap[dayOfWeek]`; a failed lookup or an invalid date makes the
strict equality false. -/
def matchDayOfWeek (o : DateOracle) (dow : Str) (e : RawEvent) : Bool :=
  let dval := jsOrOpt (e.start.bind StartEnd.dateTime) (e.start.bind StartEnd.date)
  match daysOfWeekMap dow, dval.bind o.getDay with
  | some n, some d => d == n
  | _, _ => false

/-- Location-type predicate: `'IP'` looks for the substring `"in person"` in
the whole lowercased summary, `'V'` for `"virtual"`. -/
def matchLocationType (lt : Str) (e : RawEvent) : Bool :=
  if lt.isEmpty then true
  else if lt = ipStr then includesJS (lowerL e.summary) ("in person".toList)
  else if lt = vStr then includesJS (lowerL e.summary) virtualStr
  else true

/-- Event-holder predicate: case-insensitive substring test of the summary. -/
def matchEventHolder (eh : Str) (e : RawEvent) : Bool :=
  if eh.isEmpty then true else includesJS (lowerL e.summary) (lowerL eh)

/-- The body of the `events.filter` callback: the conjunction of the five
predicates, each vacuously true when its criterion is unset.  Evaluating the
event-date branch can throw. -/
def eventPred (o : DateOracle) (c : Criteria) (e : RawEvent) : Except Unit Bool := do
  let mCN := matchClassName c.className e
  let mED ← if c.eventDate.isEmpty then pure true else matchEventDate o c.eventDate e
  let mDW := if c.dayOfWeek.isEmpty then true else matchDayOfWeek o c.dayOfWeek e
  let mLT := matchLocationType c.locationType e
  let mEH := matchEventHolder c.eventHolder e
  pure (mCN && mLT && mEH && mED && mDW)

/-- `filteredEvents = events.filter(…)`: order-preserving filtering where a
throw in the callback aborts the whole call. -/
def filteredEvents (o : DateOracle) (c : Criteria) : List RawEvent → Except Unit (List RawEvent)
  | [] => .ok []
  | e :: t => do
    let keep ← eventPred o c e
    let rest ← filteredEvents o c t
    pure (if keep then e :: rest else rest)

/-- `'No events found over the next 10 days.'` -/
def noEventsMsg : Str := "No events found over the next 10 days.".toList

/-- `'No events found matching the specified filters.'` -/
def noFilterMatchMsg : Str := "No events found matching the specified filters.".toList

/-- `'Failed to retrieve calendar events.'` (the catch-all follow-up). -/
def fetchFailedMsg : Str := "Failed to retrieve calendar events.".toList

/-- User-visible result of `listEvents` after a successful fetch. -/
inductive ListOutcome
  | followUpMsg (m : Str)
  | paged (events : List RawEvent)
deriving DecidableEq, Repr

/-- What `listEvents` does with a successfully fetched batch: empty batch →
"no events" follow-up; a throw while filtering → the catch-all follow-up;
empty filter result → "no match" follow-up; otherwise the paged DM session. -/
def listEventsOutcome (o : DateOracle) (c : Criteria) (events : List RawEvent) : ListOutcome :=
  if events.length = 0 then .followUpMsg noEventsMsg
  else
    match filteredEvents o c events with
    | .error _ => .followUpMsg fetchFailedMsg
    | .ok [] => .followUpMsg noFilterMatchMsg
    | .ok (f :: fs) => .paged (f :: fs)

/-- Externally visible effects of one `run` invocation, in program order. -/
inductive Effect
  | dbConnect
  | replyInvalidClass
  | replyInvalidLoc
  | replyInvalidDate
  | replyAuthenticating
  | authorizeFlow
  | providerQuery
  | dbUpsert (eventId : Str)
  | followUp (m : Str)
  | dmPagedSession
deriving DecidableEq, Repr

/-- The three option-format checks of `run`, in source order; `some e` is the
rejection reply that ends the invocation. -/
def validationError (c : Criteria) : Option Effect :=
  if ¬c.className.isEmpty ∧ ¬classNameRegexTest c.className then some .replyInvalidClass
  else if ¬c.locationType.isEmpty ∧ c.locationType ≠ ipStr ∧ c.locationType ≠ vStr then
    some .replyInvalidLoc
  else if ¬c.eventDate.isEmpty ∧ ¬dateRegexTest c.eventDate then some .replyInvalidDate
  else none

/-- Effects of `listEvents` on a successfully fetched batch: the provider
query, then (batch nonempty) one upsert per event before filtering, then the
outcome of `listEventsOutcome`. -/
def listEventsEffects (o : DateOracle) (c : Criteria) (events : List RawEvent) : List Effect :=
  .providerQuery ::
    (if events.length = 0 then [.followUp noEventsMsg]
     else
       (events.map fun e => Effect.dbUpsert e.id) ++
         match listEventsOutcome o c events with
         | .followUpMsg m => [.followUp m]
         | .paged _ => [.dmPagedSession])

/-- The effect trace of one `run` invocation on the success path of
authorization and fetch: the MongoDB connection is opened first, then the
options are validated (a failure replies and returns), then the
"Authenticating…" reply, the consent/credential flow, and `listEvents`. -/
def runTrace (o : DateOracle) (opts : Opts) (events : List RawEvent) : List Effect :=
  let c := readOpts opts
  .dbConnect ::
    (match validationError c with
     | some e => [e]
     | none => .replyAuthenticating :: .authorizeFlow :: listEventsEffects o c events)

/-- `EVENTS_PER_PAGE`. -/
def EVENTS_PER_PAGE : Nat := 3

/-- `Math.ceil(parsedEvents.length / EVENTS_PER_PAGE)` for a list. -/
def pageCount {α : Type} (l : List α) : Nat :=
  (l.length + (EVENTS_PER_PAGE - 1)) / EVENTS_PER_PAGE

/-- `parsedEvents.slice(page * EVENTS_PER_PAGE, (page + 1) * EVENTS_PER_PAGE)`. -/
def pageSlice {α : Type} (l : List α) (page : Nat) : List α :=
  (l.drop (page * EVENTS_PER_PAGE)).take EVENTS_PER_PAGE

/-- `setDisabled(page === 0)` on the Previous button in `updateMessage`. -/
def prevDisabled (page : Int) : Bool := page == 0

/-- `setDisabled(page === Math.ceil(len / EVENTS_PER_PAGE) - 1)` on the Next
button in `updateMessage`. -/
def nextDisabled {α : Type} (l : List α) (page : Int) : Bool :=
  page == (pageCount l : Int) - 1

/-- `setDisabled(filteredEvents.length <= EVENTS_PER_PAGE)` on the Next button
of the initial render. -/
def initialNextDisabled {α : Type} (l : List α) : Bool :=
  decide (l.length ≤ EVENTS_PER_PAGE)

/-- One paging session: the mutable `currentPage` (a JS number, so signed) and
whether the collector has been stopped. -/
structure Session where
  currentPage : Int
  stopped : Bool
deriving DecidableEq, Repr

/-- The three button custom ids. -/
inductive Btn
  | prev
  | next
  | done
deriving DecidableEq, Repr

/-- The `collector.on('collect')` handler: `done` stops the collector and
strips the buttons; `prev`/`next` decrement/increment `currentPage`
unconditionally.  A stopped collector delivers no further events. -/
def collectStep (s : Session) (b : Btn) : Session :=
  if s.stopped then s
  else
    match b with
    | .done => { s with stopped := true }
    | .prev => { s with currentPage := s.currentPage - 1 }
    | .next => { s with currentPage := s.currentPage + 1 }

/-! ## Concrete fixtures for counterexamples and witnesses -/

/-- A trivial `Date` semantics (formatting irrelevant to the facts below). -/
def trivOracle : DateOracle := { fmt := fun _ => [], getDay := fun _ => none }

/-- A `Date` semantics under which every instant falls on a Monday. -/
def mondayOracle : DateOracle := { fmt := fun _ => [], getDay := fun _ => some 1 }

/-- An in-person event: third summary segment has no "virtual" and the
summary does not contain "in person". -/
def evIP : RawEvent :=
  { id := "e1".toList, summary := "cisc101-smith-zoom office".toList,
    start := none, stop := none, location := none }

/-- Invocation filtering on location type `IP` only. -/
def optsIP : Opts :=
  { classname := none, locationtype := some ("IP".toList), eventholder := none,
    eventdate := none, dayofweek := none }

/-- An event whose course segment `cisc1234` strictly extends `cisc123`. -/
def ev4 : RawEvent :=
  { id := "e4".toList, summary := "cisc1234-smith-room".toList,
    start := none, stop := none, location := none }

/-- Invocation filtering on class name `cisc123` only. -/
def optsC4 : Opts :=
  { classname := some ("cisc123".toList), locationtype := none, eventholder := none,
    eventdate := none, dayofweek := none }

/-- A date-only event: `start` is present but carries no `dateTime` field. -/
def dateOnlyEv : RawEvent :=
  { id := "d".toList, summary := "cisc101-smith-in person".toList,
    start := some { dateTime := none, date := some ("2025-12-09".toList) },
    stop := none, location := none }

/-- Invocation filtering on the well-formed event date `december 9` only. -/
def optsED : Opts :=
  { classname := none, locationtype := none, eventholder := none,
    eventdate := some ("december 9".toList), dayofweek := none }

/-- Invocation with the malformed event date `december 123` (three digits). -/
def optsBadDate : Opts :=
  { classname := none, locationtype := none, eventholder := none,
    eventdate := some ("december 123".toList), dayofweek := none }

/-- Invocation with event date `december 32`: a valid month name and a day
number that is not an actual day of December. -/
def optsDec32 : Opts :=
  { classname := none, locationtype := none, eventholder := none,
    eventdate := some ("december 32".toList), dayofweek := none }

/-- An event with a parsable start instant (used with `mondayOracle`). -/
def evMon : RawEvent :=
  { id := "m".toList, summary := "cisc101-smith-ip".toList,
    start := some { dateTime := some ("2025-10-13T10:00:00".toList), date := none },
    stop := none, location := none }

/-- Invocation supplying only `dayofweek="Monday"` (capital M). -/
def opts10 : Opts :=
  { classname := none, locationtype := none, eventholder := none,
    eventdate := none, dayofweek := some ("Monday".toList) }

/-- An event whose summary has a single segment. -/
def evC7 : RawEvent :=
  { id := "s".toList, summary := "solo".toList, start := none, stop := none,
    location := none }

/-- Seven distinct items, standing for seven filtered events. -/
def l7 : List Nat := [0, 1, 2, 3, 4, 5, 6]

/-- An invocation supplying only the `eventdate` option. -/
def edOnlyOpts (ed : Str) : Opts :=
  { classname := none
    locationtype := none
    eventholder := none
    eventdate := some ed
    dayofweek := none }

/-- An invocation supplying only the `dayofweek` option. -/
def dowOnlyOpts (dow : Str) : Opts :=
  { classname := none
    locationtype := none
    eventholder := none
    eventdate := none
    dayofweek := some dow }

/-- Criteria with only the class-name filter set. -/
def classOnlyCrit (cn : Str) : Criteria :=
  { className := cn
    locationType := []
    eventHolder := []
    eventDate := []
    dayOfWeek := [] }

/-- Criteria with only the location-type filter set. -/
def locOnlyCrit (lt : Str) : Criteria :=
  { className := []
    locationType := lt
    eventHolder := []
    eventDate := []
    dayOfWeek := [] }

/-! ## Helper lemmas -/

/-- The trimmed whitespace characters are fixed by `Char.toLower`. -/
lemma ws_toLower_eq (c : Char) (h : isWs c = true) : c.toLower = c := by
  simp only [isWs, Bool.or_eq_true, beq_iff_eq] at h
  rcases h with ((h | h) | h) | h <;> subst h <;> decide

/-- Dropping a whitespace prefix does not change whether a mapped list
contains a given pattern, provided no whitespace character maps into the
pattern. -/
lemma infix_map_dropWhile_iff (f : Char → Char) (v : List Char)
    (hv : ∀ c, isWs c = true → f c ∉ v) :
    ∀ l : List Char, (v <:+: (l.dropWhile isWs).map f ↔ v <:+: l.map f) := by
  intro l
  induction l with
  | nil => simp
  | cons c t ih =>
    by_cases hc : isWs c
    · rw [List.dropWhile_cons_of_pos hc]
      constructor
      · intro h
        exact List.infix_cons_iff.mpr (Or.inr (ih.mp h))
      · intro h
        rcases List.infix_cons_iff.mp (by simpa using h) with hpre | hinf
        · cases v with
          | nil => simp
          | cons a v' =>
            exfalso
            rcases hpre with ⟨t', ht'⟩
            simp only [List.cons_append] at ht'
            injection ht' with h1 _
            apply hv c hc
            rw [← h1]
            exact List.mem_cons_self a v'
        · exact ih.mpr hinf
    · rw [List.dropWhile_cons_of_neg hc]

/-- Membership in a pattern is invariant under reversal of the pattern. -/
lemma infix_reverse_iff (v l : List Char) : v <:+: l.reverse ↔ v.reverse <:+: l := by
  constructor
  · intro h
    have := List.reverse_infix.mpr h
    simpa using this
  · intro h
    have := List.reverse_infix.mpr h
    simpa using this

/-- Trimming before lowering does not change whether the lowered string
contains a pattern that no whitespace character lowers into. -/
lemma trim_lower_infix_iff (v : List Char)
    (hv : ∀ c, isWs c = true → Char.toLower c ∉ v) (s : Str) :
    v <:+: lowerL (trimL s) ↔ v <:+: lowerL s := by
  have hv' : ∀ c, isWs c = true → Char.toLower c ∉ v.reverse := by
    intro c hc
    simpa using hv c hc
  unfold trimL lowerL
  rw [List.map_reverse, infix_reverse_iff,
    infix_map_dropWhile_iff Char.toLower v.reverse hv',
    List.map_reverse, ← infix_reverse_iff, List.reverse_reverse,
    infix_map_dropWhile_iff Char.toLower v hv]

/-- No trimmed-whitespace character lowers into `"virtual"`. -/
lemma ws_not_in_virtual (c : Char) (h : isWs c = true) : Char.toLower c ∉ virtualStr := by
  simp only [isWs, Bool.or_eq_true, beq_iff_eq] at h
  rcases h with ((h | h) | h) | h <;> subst h <;> decide

/-- When the event-date criterion is unset, the filter callback cannot throw:
it is the plain conjunction of the five predicates with the event-date one
vacuously true. -/
lemma eventPred_no_eventdate (o : DateOracle) (c : Criteria)
    (hed : c.eventDate = []) (e : RawEvent) :
    eventPred o c e = .ok
      (matchClassName c.className e && matchLocationType c.locationType e &&
        matchEventHolder c.eventHolder e && true &&
        (if c.dayOfWeek.isEmpty then true else matchDayOfWeek o c.dayOfWeek e)) := by
  unfold eventPred
  rw [hed]
  rfl

/-- When the event-date criterion is unset the filter never errors, and it
keeps exactly the events satisfying the conjunction of the predicates, in
input order. -/
lemma filteredEvents_no_eventdate (o : DateOracle) (c : Criteria)
    (hed : c.eventDate = []) (evs : List RawEvent) :
    filteredEvents o c evs = .ok (evs.filter fun e =>
      matchClassName c.className e && matchLocationType c.locationType e &&
        matchEventHolder c.eventHolder e && true &&
        (if c.dayOfWeek.isEmpty then true else matchDayOfWeek o c.dayOfWeek e)) := by
  induction evs with
  | nil => rfl
  | cons e t ih =>
    simp only [filteredEvents]
    rw [eventPred_no_eventdate o c hed e, ih, List.filter_cons]
    split <;> rfl

/-- A validation failure replies with one of the three rejection messages. -/
lemma validationError_cases (c : Criteria) (e : Effect)
    (h : validationError c = some e) :
    e = .replyInvalidClass ∨ e = .replyInvalidLoc ∨ e = .replyInvalidDate := by
  unfold validationError at h
  split at h
  · exact Or.inl (Option.some.inj h).symm
  · split at h
    · exact Or.inr (Or.inl (Option.some.inj h).symm)
    · split at h
      · exact Or.inr (Or.inr (Option.some.inj h).symm)
      · cases h

/-- The effects of a successful fetch never include a validation reply. -/
lemma replyInvalidDate_notin_listEffects (o : DateOracle) (c : Criteria)
    (evs : List RawEvent) : Effect.replyInvalidDate ∉ listEventsEffects o c evs := by
  intro hmem
  simp only [listEventsEffects, List.mem_cons] at hmem
  rcases hmem with h | h
  · exact absurd h (by decide)
  · split at h
    · simp at h
    · rw [List.mem_append] at h
      rcases h with h | h
      · simp [List.mem_map] at h
      · split at h <;> simp_all

/-- Concatenating `pageSlice l 0, pageSlice l 1, …` over all `pageCount l`
pages reproduces `l` exactly. -/
lemma pages_flatten {α : Type} :
    ∀ (n : Nat) (l : List α), l.length ≤ n →
      ((List.range (pageCount l)).map (pageSlice l)).flatten = l := by
  intro n
  induction n with
  | zero =>
    intro l hl
    have : l = [] := List.length_eq_zero.mp (Nat.le_zero.mp hl)
    subst this
    simp [pageCount, EVENTS_PER_PAGE]
  | succ n ih =>
    intro l hl
    cases l with
    | nil => simp [pageCount, EVENTS_PER_PAGE]
    | cons a t =>
      have hpc : pageCount (a :: t) = pageCount ((a :: t).drop 3) + 1 := by
        simp only [pageCount, EVENTS_PER_PAGE, List.length_drop, List.length_cons]
        omega
      have hsliceS : ∀ p : Nat, pageSlice (a :: t) (p + 1) = pageSlice ((a :: t).drop 3) p := by
        intro p
        unfold pageSlice
        rw [List.drop_drop]
        congr 2
        simp only [EVENTS_PER_PAGE]
        omega
      have hrec : ((a :: t).drop 3).length ≤ n := by
        simp only [List.length_drop, List.length_cons]
        simp only [List.length_cons] at hl
        omega
      rw [hpc, List.range_succ_eq_map, List.map_cons, List.map_map, List.flatten_cons]
      have hmap : (List.range (pageCount ((a :: t).drop 3))).map (pageSlice (a :: t) ∘ Nat.succ)
          = (List.range (pageCount ((a :: t).drop 3))).map (pageSlice ((a :: t).drop 3)) := by
        apply List.map_congr_left
        intro p _
        simpa [Function.comp, Nat.succ_eq_add_one] using hsliceS p
      rw [hmap, ih _ hrec]
      have h0 : pageSlice (a :: t) 0 = (a :: t).take 3 := by
        simp [pageSlice, EVENTS_PER_PAGE]
      rw [h0, List.take_append_drop]

/-- `matchLocationType` at criterion `IP` is the "in person" summary test. -/
lemma matchLocationType_ip (e : RawEvent) :
    matchLocationType ipStr e = includesJS (lowerL e.summary) ("in person".toList) := rfl

/-- `matchLocationType` at criterion `V` is the "virtual" summary test. -/
lemma matchLocationType_v (e : RawEvent) :
    matchLocationType vStr e = includesJS (lowerL e.summary) virtualStr := rfl

/-! ## C1: `eventdate="december 32"` -/

/-- C1 is false on the code: `"december 32"` matches `dateRegex` (the day part
is only checked to be 1–2 digits), so validation does not reject it and the
invocation reaches the provider query. -/
theorem C1_counterexample :
    dateRegexTest ("december 32".toList) = true ∧
    validationError (readOpts optsDec32) = none ∧
    Effect.providerQuery ∈ runTrace trivOracle optsDec32 [] := by
  decide

/-- C1 amended: an `eventdate` value is rejected before any provider call iff
it fails the month-name-plus-1-or-2-digits regex; any value matching the
regex — including `"december 32"` — proceeds to the provider query. -/
theorem C1_eventdate_regex_gate (o : DateOracle) (ed : Str) (evs : List RawEvent)
    (h : ed ≠ []) :
    (dateRegexTest ed = false →
      runTrace o (edOnlyOpts ed) evs = [.dbConnect, .replyInvalidDate]) ∧
    (dateRegexTest ed = true →
      Effect.providerQuery ∈ runTrace o (edOnlyOpts ed) evs ∧
      Effect.replyInvalidDate ∉ runTrace o (edOnlyOpts ed) evs) := by
  have hne : ed.isEmpty = false := by
    cases ed with
    | nil => exact absurd rfl h
    | cons a t => rfl
  have hread : readOpts (edOnlyOpts ed)
      = { className := []
          locationType := []
          eventHolder := []
          eventDate := ed
          dayOfWeek := [] } := by
    simp [readOpts, edOnlyOpts, jsOrUndef, hne]
  constructor
  · intro hf
    simp [runTrace, hread, validationError, hne, hf]
  · intro ht
    have hv : validationError
        { className := []
          locationType := []
          eventHolder := []
          eventDate := ed
          dayOfWeek := [] } = none := by
      simp [validationError, hne, ht]
    constructor
    · simp [runTrace, hread, hv, listEventsEffects]
    · intro hmem
      simp only [runTrace, hread, hv, List.mem_cons] at hmem
      rcases hmem with h1 | h1 | h1 | h1
      · exact absurd h1 (by decide)
      · exact absurd h1 (by decide)
      · exact absurd h1 (by decide)
      · exact replyInvalidDate_notin_listEffects o _ evs h1

/-- C1 witness: a value failing the regex (three digits) is rejected with the
format-error reply before any other effect. -/
theorem C1_witness :
    ("december 123".toList ≠ ([] : Str)) ∧
    runTrace trivOracle optsBadDate []
      = [Effect.dbConnect, Effect.replyInvalidDate] := by
  refine ⟨by decide, ?_⟩
  have h := C1_eventdate_regex_gate trivOracle ("december 123".toList) [] (by decide)
  exact h.1 (by decide)

/-! ## C2: paging-controller boundary behaviour -/

/-- C2 is false on the code: the collect handler decrements unconditionally,
so a `prev` event on page 0 is not a no-op — it drives the index to −1,
violating the claimed invariant; likewise `next` on the last page (index 2 of
a 7-element list) drives the index to 3. -/
theorem C2_counterexample :
    collectStep { currentPage := 0, stopped := false } Btn.prev
        ≠ { currentPage := 0, stopped := false } ∧
    (collectStep { currentPage := 0, stopped := false } Btn.prev).currentPage = -1 ∧
    pageCount l7 = 3 ∧
    (collectStep { currentPage := 2, stopped := false } Btn.next).currentPage = 3 := by
  decide

/-- C2 amended: the handler applies `prev`/`next` unconditionally
(`currentPage ± 1`); boundary protection is provided only by the rendered
buttons, which disable Previous exactly on page 0 and Next exactly on the
last page; `done` stops the collector, and a stopped session ignores
further events. -/
theorem C2_unconditional_step (s : Session) (l : List RawEvent)
    (h : s.stopped = false) :
    (collectStep s .prev).currentPage = s.currentPage - 1 ∧
    (collectStep s .next).currentPage = s.currentPage + 1 ∧
    (collectStep s .done).stopped = true ∧
    (prevDisabled s.currentPage = true ↔ s.currentPage = 0) ∧
    (nextDisabled l s.currentPage = true ↔ s.currentPage = (pageCount l : Int) - 1) ∧
    (∀ b, collectStep { s with stopped := true } b = { s with stopped := true }) := by
  refine ⟨?_, ?_, ?_, ?_, ?_, ?_⟩
  · simp [collectStep, h]
  · simp [collectStep, h]
  · simp [collectStep, h]
  · simp [prevDisabled]
  · simp [nextDisabled]
  · intro b
    simp [collectStep]

/-- C2 witness: the amended facts at a concrete mid-range state. -/
theorem C2_witness :
    (collectStep { currentPage := 1, stopped := false } Btn.prev).currentPage = 0 ∧
    (collectStep { currentPage := 1, stopped := false } Btn.next).currentPage = 2 ∧
    (prevDisabled 1 = true ↔ (1 : Int) = 0) := by
  have h := C2_unconditional_step { currentPage := 1, stopped := false } [] rfl
  exact ⟨h.1, h.2.1, h.2.2.2.1⟩

/-! ## C3: location-type criterion -/

/-- C3 is false on the code: `evIP` has derived `locationType = IP`, yet the
`IP` filter drops it, because the filter searches the whole summary for the
words "in person" instead of consulting the derived location type. -/
theorem C3_counterexample :
    (normalize trivOracle evIP).locationType = ipStr ∧
    filteredEvents trivOracle (readOpts optsIP) [evIP] = .ok [] :=
  ⟨rfl, rfl⟩

/-- C3 amended: with only the location-type criterion set, the filter keeps
exactly the events whose whole summary case-insensitively contains
"in person" (criterion `IP`) resp. "virtual" (criterion `V`) — not the events
whose derived `locationType` equals the criterion. -/
theorem C3_locationtype_summary_substring (o : DateOracle) (lt : Str)
    (hlt : lt = ipStr ∨ lt = vStr) (evs : List RawEvent) :
    filteredEvents o (locOnlyCrit lt) evs
      = .ok (evs.filter fun e => includesJS (lowerL e.summary)
          (if lt = ipStr then "in person".toList else virtualStr)) := by
  rw [filteredEvents_no_eventdate o _ rfl evs]
  congr 1
  apply List.filter_congr
  intro e _
  rcases hlt with rfl | rfl
  · have hip : ipStr = ipStr := rfl
    rw [if_pos hip]
    show (true && matchLocationType ipStr e && true && true && true) = _
    rw [matchLocationType_ip]
    simp
  · have hvne : ¬(vStr = ipStr) := by decide
    rw [if_neg hvne]
    show (true && matchLocationType vStr e && true && true && true) = _
    rw [matchLocationType_v]
    simp

/-- C3 witness: under criterion `IP` a summary containing "In Person" is
kept and `evIP` is dropped. -/
theorem C3_witness :
    filteredEvents trivOracle (locOnlyCrit ipStr) [evIP, dateOnlyEv]
      = .ok [dateOnlyEv] := by
  have h := C3_locationtype_summary_substring trivOracle ipStr (Or.inl rfl)
    [evIP, dateOnlyEv]
  rw [h]
  rfl

/-! ## C4: course-code criterion -/

/-- C4 is false on the code: `ev4`'s course segment is `cisc1234`, which is
not a case-insensitive exact match of `cisc123`, yet the `classname=cisc123`
filter keeps it, because the filter is a substring test over the whole
summary. -/
theorem C4_counterexample :
    lowerL (trimL ((splitOnC '-' ev4.summary).getD 0 []))
        ≠ lowerL ("cisc123".toList) ∧
    filteredEvents trivOracle (readOpts optsC4) [ev4] = .ok [ev4] :=
  ⟨by decide, rfl⟩

/-- C4 amended: with only the class-name criterion set, an event passes iff
its whole summary case-insensitively contains the supplied classname as a
substring (not an exact match of summary segment 0). -/
theorem C4_classname_substring (o : DateOracle) (cn : Str) (h : cn ≠ [])
    (evs : List RawEvent) :
    filteredEvents o (classOnlyCrit cn) evs
      = .ok (evs.filter fun e => includesJS (lowerL e.summary) (lowerL cn)) := by
  rw [filteredEvents_no_eventdate o _ rfl evs]
  congr 1
  apply List.filter_congr
  intro e _
  have hne : cn.isEmpty = false := by
    cases cn with
    | nil => exact absurd rfl h
    | cons a t => rfl
  show (matchClassName cn e && matchLocationType [] e && matchEventHolder [] e
      && true && true) = _
  simp [matchClassName, matchLocationType, matchEventHolder, hne]

/-- C4 witness: the substring test keeps `ev4` under `cisc123`. -/
theorem C4_witness :
    ("cisc123".toList ≠ ([] : Str)) ∧
    filteredEvents trivOracle (classOnlyCrit ("cisc123".toList)) [ev4, evC7]
      = .ok [ev4] := by
  refine ⟨by decide, ?_⟩
  have h := C4_classname_substring trivOracle ("cisc123".toList) (by decide) [ev4, evC7]
  rw [h]
  rfl

/-! ## C5: the filter throws on date-only events -/

/-- C5 is right and the code is wrong: everywhere else the command reads
`start?.dateTime || start?.date`, but the event-date branch of the filter
reads `event.start?.dateTime.toLowerCase()`, which throws a `TypeError` on a
date-only event (whose `start` has no `dateTime`), aborting the whole
filter; the catch replies with the generic failure message. -/
theorem C5_dateonly_event_throws (o : DateOracle) (c : Criteria) (e : RawEvent)
    (evs : List RawEvent) (st : StartEnd) (hed : c.eventDate ≠ [])
    (hst : e.start = some st) (hdt : st.dateTime = none) :
    filteredEvents o c (e :: evs) = .error () ∧
    listEventsOutcome o c (e :: evs) = .followUpMsg fetchFailedMsg := by
  have hne : c.eventDate.isEmpty = false := by
    cases hc : c.eventDate with
    | nil => exact absurd hc hed
    | cons a t => rfl
  have hpred : eventPred o c e = .error () := by
    unfold eventPred
    rw [if_neg (by simp [hne])]
    simp [matchEventDate, hst, hdt, Except.bind]
  have hfil : filteredEvents o c (e :: evs) = .error () := by
    simp only [filteredEvents, hpred]
    rfl
  refine ⟨hfil, ?_⟩
  simp [listEventsOutcome, hfil]

/-- C5 witness: the well-formed filter `eventdate="december 9"` on a batch
holding one date-only event makes the filter throw and the user receives the
generic failure message instead of a filtered listing. -/
theorem C5_witness :
    filteredEvents trivOracle (readOpts optsED) [dateOnlyEv] = .error () ∧
    listEventsOutcome trivOracle (readOpts optsED) [dateOnlyEv]
      = .followUpMsg fetchFailedMsg := by
  have h := C5_dateonly_event_throws trivOracle (readOpts optsED) dateOnlyEv []
    { dateTime := none, date := some ("2025-12-09".toList) } (by decide) rfl rfl
  exact h

/-! ## C6: validation versus I/O ordering -/

/-- An invocation with the malformed class name `math123`. -/
def optsBadClass : Opts :=
  { classname := some ("math123".toList)
    locationtype := none
    eventholder := none
    eventdate := none
    dayofweek := none }

/-- An invocation with the malformed location type `x`. -/
def optsBadLoc : Opts :=
  { classname := none
    locationtype := some ("x".toList)
    eventholder := none
    eventdate := none
    dayofweek := none }

/-- C6 is false on the code as regards the database connection: `run` opens
the MongoDB connection before validating any option, so even an invocation
with a malformed class name performs that I/O. -/
theorem C6_counterexample :
    validationError (readOpts optsBadClass) = some Effect.replyInvalidClass ∧
    Effect.dbConnect ∈ runTrace trivOracle optsBadClass [] := by
  decide

/-- C6 amended: on a malformed filter option the invocation stops right after
the rejection reply — no authorization flow, no provider query, no event
upsert — but the database connection has already been opened before the
validation runs. -/
theorem C6_validation_after_db_connect (o : DateOracle) (opts : Opts)
    (evs : List RawEvent) (e : Effect)
    (h : validationError (readOpts opts) = some e) :
    runTrace o opts evs = [.dbConnect, e] ∧
    Effect.dbConnect ∈ runTrace o opts evs ∧
    Effect.authorizeFlow ∉ runTrace o opts evs ∧
    Effect.providerQuery ∉ runTrace o opts evs ∧
    (∀ i, Effect.dbUpsert i ∉ runTrace o opts evs) := by
  have htr : runTrace o opts evs = [.dbConnect, e] := by
    simp [runTrace, h]
  have hcases := validationError_cases _ _ h
  refine ⟨htr, ?_, ?_, ?_, ?_⟩
  · rw [htr]
    simp
  · rw [htr]
    rcases hcases with rfl | rfl | rfl <;> decide
  · rw [htr]
    rcases hcases with rfl | rfl | rfl <;> decide
  · intro i
    rw [htr]
    rcases hcases with rfl | rfl | rfl <;> simp

/-- C6 witness: the malformed location type `x` is rejected right after the
database connection, with no further effect. -/
theorem C6_witness :
    validationError (readOpts optsBadLoc) = some Effect.replyInvalidLoc ∧
    runTrace trivOracle optsBadLoc [] = [Effect.dbConnect, Effect.replyInvalidLoc] ∧
    Effect.providerQuery ∉ runTrace trivOracle optsBadLoc [] := by
  have hv : validationError (readOpts optsBadLoc) = some Effect.replyInvalidLoc := by
    decide
  have h := C6_validation_after_db_connect trivOracle optsBadLoc [] Effect.replyInvalidLoc hv
  exact ⟨hv, h.1, h.2.2.2.1⟩

/-! ## C7: normalization -/

/-- The `locationType` component of `normalize`, exposed. -/
lemma normalize_locationType (o : DateOracle) (ev : RawEvent) :
    (normalize o ev).locationType
      = (match (splitOnC '-' ev.summary).get? 2 with
         | none => ipStr
         | some s => if includesJS (lowerL (trimL s)) virtualStr then vStr else ipStr) := rfl

/-- The `instructor` component of `normalize`, exposed. -/
lemma normalize_instructor (o : DateOracle) (ev : RawEvent) :
    (normalize o ev).instructor
      = jsOrUndef (((splitOnC '-' ev.summary).get? 1).map trimL) [] := rfl

/-- C7 confirmed: normalization is total; a missing second segment leaves
`instructor` empty; with fewer than three segments `locationType` is `IP`;
and `locationType` is `V` iff the third summary segment case-insensitively
contains "virtual" (the trim the code applies cannot create or destroy an
occurrence of "virtual"). -/
theorem C7_normalize_missing_segments (o : DateOracle) (ev : RawEvent) :
    ((splitOnC '-' ev.summary).length ≤ 1 → (normalize o ev).instructor = []) ∧
    ((splitOnC '-' ev.summary).length ≤ 2 → (normalize o ev).locationType = ipStr) ∧
    ((normalize o ev).locationType = vStr ↔
      virtualStr <:+: lowerL (((splitOnC '-' ev.summary).get? 2).getD [])) ∧
    ((normalize o ev).locationType = vStr ∨ (normalize o ev).locationType = ipStr) := by
  refine ⟨?_, ?_, ?_, ?_⟩
  · intro hlen
    have h1 : (splitOnC '-' ev.summary).get? 1 = none := List.get?_eq_none.mpr hlen
    rw [normalize_instructor, h1]
    rfl
  · intro hlen
    have h2 : (splitOnC '-' ev.summary).get? 2 = none := List.get?_eq_none.mpr hlen
    rw [normalize_locationType, h2]
  · rw [normalize_locationType]
    cases hg : (splitOnC '-' ev.summary).get? 2 with
    | none =>
      simp only [Option.getD_none]
      exact iff_of_false (by decide) (by decide)
    | some s =>
      simp only [Option.getD_some]
      have hiff := trim_lower_infix_iff virtualStr ws_not_in_virtual s
      by_cases hb : virtualStr <:+: lowerL (trimL s)
      · have hbt : includesJS (lowerL (trimL s)) virtualStr = true := decide_eq_true hb
        rw [hbt]
        exact iff_of_true rfl (hiff.mp hb)
      · have hbf : includesJS (lowerL (trimL s)) virtualStr = false := decide_eq_false hb
        rw [hbf]
        exact iff_of_false (by decide) (fun hc => hb (hiff.mpr hc))
  · rw [normalize_locationType]
    cases (splitOnC '-' ev.summary).get? 2 with
    | none => exact Or.inr rfl
    | some s =>
      dsimp only
      by_cases hb : includesJS (lowerL (trimL s)) virtualStr = true
      · rw [hb]
        exact Or.inl rfl
      · rw [Bool.not_eq_true] at hb
        rw [hb]
        exact Or.inr rfl

/-- C7 witness: a one-segment summary yields an empty instructor, location
type `IP`, and the iff at the (empty) third segment. -/
theorem C7_witness :
    (normalize trivOracle evC7).instructor = [] ∧
    (normalize trivOracle evC7).locationType = ipStr ∧
    ((normalize trivOracle evC7).locationType = vStr ↔
      virtualStr <:+: lowerL (((splitOnC '-' evC7.summary).get? 2).getD [])) := by
  have h := C7_normalize_missing_segments trivOracle evC7
  exact ⟨h.1 (by decide), h.2.1 (by decide), h.2.2.1⟩

/-! ## C8: pagination -/

/-- C8 confirmed: concatenating all page slices in order reproduces the list,
and for 7 items the page count is 3, page 0 is items 1–3, page 2 is item 7
alone, the Next button is disabled on page 2, and enabled on the initial
render. -/
theorem C8_pagination {α : Type} (l : List α) :
    ((List.range (pageCount l)).map (pageSlice l)).flatten = l ∧
    (l.length = 7 →
      pageCount l = 3 ∧
      pageSlice l 0 = l.take 3 ∧
      pageSlice l 2 = l.drop 6 ∧
      nextDisabled l 2 = true ∧
      initialNextDisabled l = false) := by
  refine ⟨pages_flatten l.length l le_rfl, ?_⟩
  intro h7
  have hpc : pageCount l = 3 := by
    simp [pageCount, EVENTS_PER_PAGE, h7]
  refine ⟨hpc, ?_, ?_, ?_, ?_⟩
  · simp [pageSlice, EVENTS_PER_PAGE]
  · have hlen : (l.drop 6).length ≤ 3 := by
      simp [List.length_drop, h7]
    have : pageSlice l 2 = (l.drop 6).take 3 := by
      simp [pageSlice, EVENTS_PER_PAGE]
    rw [this, List.take_of_length_le hlen]
  · simp [nextDisabled, hpc]
  · simp [initialNextDisabled, EVENTS_PER_PAGE, h7]

/-- C8 witness: the pagination facts at a concrete 7-element list. -/
theorem C8_witness :
    ((List.range (pageCount l7)).map (pageSlice l7)).flatten = l7 ∧
    pageCount l7 = 3 ∧
    pageSlice l7 0 = l7.take 3 ∧
    pageSlice l7 2 = l7.drop 6 ∧
    nextDisabled l7 2 = true := by
  have h := C8_pagination l7
  have h2 := h.2 (by decide)
  exact ⟨h.1, h2.1, h2.2.1, h2.2.2.1, h2.2.2.2.1⟩

/-! ## C9: the two empty outcomes -/

/-- C9 confirmed: an empty fetched batch yields the "no events found" message
and a nonempty batch that filters to nothing yields the "no events matching"
message; the two messages are distinct, and both differ from the failure
message. -/
theorem C9_empty_outcomes (o : DateOracle) (c : Criteria) (evs : List RawEvent) :
    (evs = [] → listEventsOutcome o c evs = .followUpMsg noEventsMsg) ∧
    (evs ≠ [] → filteredEvents o c evs = .ok [] →
      listEventsOutcome o c evs = .followUpMsg noFilterMatchMsg) ∧
    noEventsMsg ≠ noFilterMatchMsg ∧
    noEventsMsg ≠ fetchFailedMsg ∧
    noFilterMatchMsg ≠ fetchFailedMsg := by
  refine ⟨?_, ?_, by decide, by decide, by decide⟩
  · rintro rfl
    rfl
  · intro hne hfil
    have hlen : evs.length ≠ 0 := by
      cases evs with
      | nil => exact absurd rfl hne
      | cons a t => simp
    simp [listEventsOutcome, hlen, hfil]

/-- C9 witness: both outcomes at concrete inputs, and their distinctness. -/
theorem C9_witness :
    listEventsOutcome trivOracle (readOpts optsC4) [] = .followUpMsg noEventsMsg ∧
    listEventsOutcome trivOracle (readOpts optsC4) [evC7]
      = .followUpMsg noFilterMatchMsg ∧
    noEventsMsg ≠ noFilterMatchMsg := by
  refine ⟨(C9_empty_outcomes trivOracle (readOpts optsC4) []).1 rfl,
    (C9_empty_outcomes trivOracle (readOpts optsC4) [evC7]).2.1 (by decide) rfl,
    (C9_empty_outcomes trivOracle (readOpts optsC4) []).2.2.1⟩

/-! ## C10: the `dayofweek` option -/

/-- C10 is false as stated: the supplied string `"Monday"` is not one of the
seven lowercase weekday names (its own map lookup fails), yet because `run`
lowercases the option before the filter runs, the weekday predicate is true
for a Monday event and the user receives the paged view, not the
no-match message. -/
theorem C10_counterexample :
    daysOfWeekMap ("Monday".toList) = none ∧
    matchDayOfWeek mondayOracle ((readOpts opts10).dayOfWeek) evMon = true ∧
    listEventsOutcome mondayOracle (readOpts opts10) [evMon] = .paged [evMon] := by
  refine ⟨by decide, rfl, rfl⟩

/-- C10 amended: for any `dayofweek` whose lowercased form is not a weekday
name, no validation rejection occurs (the option is never validated), the
weekday predicate is false for every event, and — with it the only criterion
set and a nonempty batch — the user receives the no-match message. -/
theorem C10_dayofweek_unvalidated (o : DateOracle) (dow : Str)
    (evs : List RawEvent) (hd : dow ≠ [])
    (hmap : daysOfWeekMap (lowerL dow) = none) (hevs : evs ≠ []) :
    validationError (readOpts (dowOnlyOpts dow)) = none ∧
    (∀ e, matchDayOfWeek o (readOpts (dowOnlyOpts dow)).dayOfWeek e = false) ∧
    listEventsOutcome o (readOpts (dowOnlyOpts dow)) evs
      = .followUpMsg noFilterMatchMsg := by
  have hld : (lowerL dow).isEmpty = false := by
    cases dow with
    | nil => exact absurd rfl hd
    | cons a t => rfl
  have hread : readOpts (dowOnlyOpts dow)
      = { className := []
          locationType := []
          eventHolder := []
          eventDate := []
          dayOfWeek := lowerL dow } := by
    simp [readOpts, dowOnlyOpts, jsOrUndef, hld]
  have hmdw : ∀ e, matchDayOfWeek o (lowerL dow) e = false := by
    intro e
    simp [matchDayOfWeek, hmap]
  refine ⟨?_, ?_, ?_⟩
  · rw [hread]
    rfl
  · intro e
    rw [hread]
    exact hmdw e
  · rw [hread]
    have hfil : filteredEvents o
        { className := []
          locationType := []
          eventHolder := []
          eventDate := []
          dayOfWeek := lowerL dow } evs = .ok [] := by
      rw [filteredEvents_no_eventdate o _ rfl evs]
      have : evs.filter (fun e =>
          matchClassName [] e && matchLocationType [] e && matchEventHolder [] e &&
            true && (if (lowerL dow).isEmpty then true else matchDayOfWeek o (lowerL dow) e))
          = [] := by
        apply List.filter_eq_nil_iff.mpr
        intro e _
        simp [hld, hmdw e]
      rw [this]
    have hlen : evs.length ≠ 0 := by
      cases evs with
      | nil => exact absurd rfl hevs
      | cons a t => simp
    simp [listEventsOutcome, hlen, hfil]

/-- C10 witness: `dayofweek="Blursday"` passes validation, the predicate is
false for the Monday event, and the user sees the no-match message. -/
theorem C10_witness :
    validationError (readOpts (dowOnlyOpts ("Blursday".toList))) = none ∧
    matchDayOfWeek trivOracle (readOpts (dowOnlyOpts ("Blursday".toList))).dayOfWeek evMon
      = false ∧
    listEventsOutcome trivOracle (readOpts (dowOnlyOpts ("Blursday".toList))) [evMon]
      = .followUpMsg noFilterMatchMsg := by
  have h := C10_dayofweek_unvalidated trivOracle ("Blursday".toList) [evMon]
    (by decide) (by decide) (by decide)
  exact ⟨h.1, h.2.1 evMon, h.2.2⟩

end Sage
